import Mathlib

/-!
Shallow embedding of the HTML-to-Markdown conversion subsystem:
the TypeScript entry point `parseMarkdown` with its post-processing passes
(`processMultiLineLinks`, `removeSkipToContentLinks`), the turndown
`wechatImages` image-resolution rule, the `GoMarkdownConverter` singleton,
and the Go-side lazy-image normalizer `processWechatLazyImages`.
-/

namespace HtmlToMarkdown

/-- JS truthiness of a nullable string: `null`/`undefined` and `""` are falsy. -/
def truthyStr : Option String → Bool
  | some s => s != ""
  | none => false

/-! ### processMultiLineLinks (TypeScript)

```
function processMultiLineLinks(markdownContent: string): string {
  let insideLinkContent = false;
  let newMarkdownContent = "";
  let linkOpenCount = 0;
  for (let i = 0; i < markdownContent.length; i++) {
    const char = markdownContent[i];
    if (char == "[") { linkOpenCount++; }
    else if (char == "]") { linkOpenCount = Math.max(0, linkOpenCount - 1); }
    insideLinkContent = linkOpenCount > 0;
    if (insideLinkContent && char == "\n") { newMarkdownContent += "\\" + "\n"; }
    else { newMarkdownContent += char; }
  }
  return newMarkdownContent;
}
```
`Math.max(0, linkOpenCount - 1)` is Nat subtraction (floored at 0). -/
def processMLLAux (depth : Nat) : List Char → List Char
  | [] => []
  | c :: rest =>
    let d := if c = '[' then depth + 1 else if c = ']' then depth - 1 else depth
    if 0 < d ∧ c = '\n' then '\\' :: '\n' :: processMLLAux d rest
    else c :: processMLLAux d rest

/-- The TypeScript `processMultiLineLinks`, character-for-character. -/
def processMultiLineLinks (s : String) : String := ⟨processMLLAux 0 s.data⟩

/-- One step of the bracket-depth scan as the claim describes it:
increment the depth on `[`, decrement floored at 0 on `]`, and emit
backslash+newline for a newline seen while the depth is positive. -/
def mllStep (st : Nat × List Char) (c : Char) : Nat × List Char :=
  let d := if c = '[' then st.1 + 1 else if c = ']' then st.1 - 1 else st.1
  (d, st.2 ++ (if 0 < d ∧ c = '\n' then ['\\', '\n'] else [c]))

/-- The claim's description of the transform: a single left-to-right fold
maintaining the bracket-depth counter. -/
def processMultiLineLinksSpec (s : String) : String :=
  ⟨(s.data.foldl mllStep (0, [])).2⟩

theorem processMLLAux_foldl (l : List Char) :
    ∀ d acc, (l.foldl mllStep (d, acc)).2 = acc ++ processMLLAux d l := by
  induction l with
  | nil => intro d acc; simp [processMLLAux]
  | cons c rest ih =>
    intro d acc
    simp only [List.foldl_cons, mllStep, processMLLAux]
    by_cases h : 0 < (if c = '[' then d + 1 else if c = ']' then d - 1 else d) ∧ c = '\n'
    · simp [h, ih]
      by_cases hd : 0 < d <;> simp [hd]
    · simp [h, ih]

theorem processMLLAux_no_brackets (l : List Char)
    (h : ∀ c ∈ l, c ≠ '[' ∧ c ≠ ']') : processMLLAux 0 l = l := by
  induction l with
  | nil => rfl
  | cons c rest ih =>
    have hc := h c (List.mem_cons_self c rest)
    simp only [processMLLAux, hc.1, hc.2, if_false]
    simp only [Nat.lt_irrefl, false_and, if_false]
    exact congrArg (c :: ·) (ih fun x hx => h x (List.mem_cons_of_mem c hx))

/-- Claim C3: `processMultiLineLinks` is the single left-to-right bracket-depth
scan (increment on `[`, decrement floored at 0 on `]`, newline at positive
depth becomes backslash+newline, all other characters unchanged); on
`"[a\nb](http://x)"` it yields `"[a\\\nb](http://x)"`, and any input with no
`[` or `]` is returned unchanged. -/
theorem claimC3_processMultiLineLinks_scan :
    (∀ s : String, processMultiLineLinks s = processMultiLineLinksSpec s)
    ∧ processMultiLineLinks "[a\nb](http://x)" = "[a\\\nb](http://x)"
    ∧ ∀ s : String, (∀ c ∈ s.data, c ≠ '[' ∧ c ≠ ']') →
        processMultiLineLinks s = s := by
  refine ⟨fun s => ?_, by decide, fun s h => ?_⟩
  · unfold processMultiLineLinks processMultiLineLinksSpec
    rw [processMLLAux_foldl]
    simp
  · unfold processMultiLineLinks
    rw [processMLLAux_no_brackets s.data h]

/-- Witness for C3: the no-bracket clause at the concrete input `"plain\ntext"`. -/
theorem claimC3_witness : processMultiLineLinks "plain\ntext" = "plain\ntext" :=
  claimC3_processMultiLineLinks_scan.2.2 "plain\ntext" (by decide)

/-- Claim C10: `processMultiLineLinks` is not idempotent — on `"[a\nb](x)"`
the second pass escapes the newline again, producing a second backslash. -/
theorem claimC10_processMultiLineLinks_not_idempotent :
    processMultiLineLinks (processMultiLineLinks "[a\nb](x)")
      ≠ processMultiLineLinks "[a\nb](x)"
    ∧ processMultiLineLinks (processMultiLineLinks "[a\nb](x)")
      = "[a\\\\\nb](x)" := by
  constructor <;> decide

/-! ### removeSkipToContentLinks (TypeScript)

```
function removeSkipToContentLinks(markdownContent: string): string {
  return markdownContent.replace(/\[Skip to Content\]\(#[^\)]*\)/gi, "");
}
```
The regex is embedded as an explicit scanner: a match is `[`, the text
`Skip to Content` case-insensitively, then `](`, then `#`, then a run of
non-`)` characters, then `)`; the global (`g`) replace removes every
non-overlapping match left to right. -/

/-- Consume a literal character sequence from the front of the input. -/
def dropLit : List Char → List Char → Option (List Char)
  | [], l => some l
  | _ :: _, [] => none
  | p :: ps, c :: cs => if c = p then dropLit ps cs else none

/-- Consume a case-insensitive literal (pattern given in lower case),
as the regex `i` flag does. -/
def lowerMatch : List Char → List Char → Option (List Char)
  | [], l => some l
  | _ :: _, [] => none
  | p :: ps, c :: cs => if c.toLower = p then lowerMatch ps cs else none

/-- Consume `[^\)]*\)`: a run of non-`)` characters followed by `)`. -/
def consumeTarget : List Char → Option (List Char)
  | [] => none
  | c :: cs => if c = ')' then some cs else consumeTarget cs

/-- The three literal characters between the link text and the anchor mark. -/
def linkBridge : List Char := [']', '(', '#']

/-- Anchored match of `\[Skip to Content\]\(#[^\)]*\)` (case-insensitive)
at the head of the input, returning the rest of the input after the match. -/
def matchSkipLink (l : List Char) : Option (List Char) :=
  match l with
  | c :: rest =>
    if c = '[' then
      (lowerMatch "skip to content".data rest).bind
        (fun r1 => (dropLit linkBridge r1).bind consumeTarget)
    else none
  | [] => none

theorem dropLit_length : ∀ p l r : List Char, dropLit p l = some r → r.length ≤ l.length := by
  intro p
  induction p with
  | nil => intro l r h; simp [dropLit] at h; simp [h]
  | cons x xs ih =>
    intro l r h
    cases l with
    | nil => simp [dropLit] at h
    | cons c cs =>
      simp only [dropLit] at h
      split at h
      · exact Nat.le_succ_of_le (ih cs r h)
      · cases h

theorem lowerMatch_length : ∀ p l r : List Char, lowerMatch p l = some r → r.length ≤ l.length := by
  intro p
  induction p with
  | nil => intro l r h; simp [lowerMatch] at h; simp [h]
  | cons x xs ih =>
    intro l r h
    cases l with
    | nil => simp [lowerMatch] at h
    | cons c cs =>
      simp only [lowerMatch] at h
      split at h
      · exact Nat.le_succ_of_le (ih cs r h)
      · cases h

theorem consumeTarget_length : ∀ l r : List Char, consumeTarget l = some r → r.length < l.length := by
  intro l
  induction l with
  | nil => intro r h; simp [consumeTarget] at h
  | cons c cs ih =>
    intro r h
    simp only [consumeTarget] at h
    split at h
    · cases h; simp
    · exact Nat.lt_succ_of_lt (ih r h)

theorem matchSkipLink_length (l r : List Char) (h : matchSkipLink l = some r) :
    r.length < l.length := by
  cases l with
  | nil => simp [matchSkipLink] at h
  | cons c rest =>
    simp only [matchSkipLink] at h
    split at h
    · cases hm : lowerMatch "skip to content".data rest with
      | none => rw [hm] at h; simp at h
      | some r1 =>
        rw [hm] at h
        simp only [Option.some_bind] at h
        cases hd : dropLit linkBridge r1 with
        | none => rw [hd] at h; simp at h
        | some r2 =>
          rw [hd] at h
          simp only [Option.some_bind] at h
          have h1 := lowerMatch_length _ _ _ hm
          have h2 := dropLit_length _ _ _ hd
          have h3 := consumeTarget_length _ _ h
          simp only [List.length_cons]
          omega
    · simp at h

/-- The global replace, with explicit fuel (one unit per scanned position;
`fuel = l.length` always suffices). -/
def removeSkipFuel : Nat → List Char → List Char
  | 0, l => l
  | _ + 1, [] => []
  | fuel + 1, c :: cs =>
    match matchSkipLink (c :: cs) with
    | some r => removeSkipFuel fuel r
    | none => c :: removeSkipFuel fuel cs

theorem removeSkipFuel_cons_some (fuel : Nat) (c : Char) (cs r : List Char)
    (h : matchSkipLink (c :: cs) = some r) :
    removeSkipFuel (fuel + 1) (c :: cs) = removeSkipFuel fuel r := by
  simp only [removeSkipFuel, h]

theorem removeSkipFuel_cons_none (fuel : Nat) (c : Char) (cs : List Char)
    (h : matchSkipLink (c :: cs) = none) :
    removeSkipFuel (fuel + 1) (c :: cs) = c :: removeSkipFuel fuel cs := by
  simp only [removeSkipFuel, h]

theorem removeSkipFuel_congr : ∀ f₁ f₂ l, l.length ≤ f₁ → l.length ≤ f₂ →
    removeSkipFuel f₁ l = removeSkipFuel f₂ l := by
  intro f₁
  induction f₁ with
  | zero =>
    intro f₂ l h1 _
    have hl : l = [] := List.eq_nil_of_length_eq_zero (Nat.le_zero.mp h1)
    subst hl
    cases f₂ <;> rfl
  | succ f ih =>
    intro f₂ l h1 h2
    cases l with
    | nil => cases f₂ <;> rfl
    | cons c cs =>
      cases f₂ with
      | zero => simp at h2
      | succ f₂' =>
        simp only [List.length_cons] at h1 h2
        cases hm : matchSkipLink (c :: cs) with
        | some r =>
          have hr := matchSkipLink_length _ _ hm
          simp only [List.length_cons] at hr
          rw [removeSkipFuel_cons_some f _ _ _ hm, removeSkipFuel_cons_some f₂' _ _ _ hm]
          exact ih f₂' r (by omega) (by omega)
        | none =>
          rw [removeSkipFuel_cons_none f _ _ hm, removeSkipFuel_cons_none f₂' _ _ hm,
            ih f₂' cs (by omega) (by omega)]

/-- The global regex replace over a character list. -/
def removeSkipL (l : List Char) : List Char := removeSkipFuel l.length l

/-- The TypeScript `removeSkipToContentLinks`. -/
def removeSkipToContentLinks (s : String) : String := ⟨removeSkipL s.data⟩

/-- The claim's notion of a removable substring: a Markdown link whose
visible text is case-insensitively exactly `Skip to Content` and whose
target begins with `#` (and, being a link target, contains no `)`). -/
def SkipLinkShape (m : List Char) : Prop :=
  ∃ txt tgt : List Char,
    m = '[' :: (txt ++ (linkBridge ++ (tgt ++ [')']))) ∧
    txt.map Char.toLower = "skip to content".data ∧
    ')' ∉ tgt

theorem lowerMatch_of_map : ∀ txt p rest : List Char, txt.map Char.toLower = p →
    lowerMatch p (txt ++ rest) = some rest := by
  intro txt
  induction txt with
  | nil => intro p rest h; simp at h; subst h; simp [lowerMatch]
  | cons c cs ih =>
    intro p rest h
    simp only [List.map_cons] at h
    subst h
    simp only [List.cons_append, lowerMatch, if_pos rfl]
    exact ih _ rest rfl

theorem dropLit_append (p rest : List Char) : dropLit p (p ++ rest) = some rest := by
  induction p with
  | nil => simp [dropLit]
  | cons c cs ih => simp [dropLit, ih]

theorem consumeTarget_append : ∀ tgt rest : List Char, ')' ∉ tgt →
    consumeTarget (tgt ++ ')' :: rest) = some rest := by
  intro tgt
  induction tgt with
  | nil => intro rest _; simp [consumeTarget]
  | cons c cs ih =>
    intro rest h
    have hc : c ≠ ')' := fun hcc => h (hcc ▸ List.mem_cons_self c cs)
    simp only [List.cons_append, consumeTarget, if_neg hc]
    exact ih rest fun hx => h (List.mem_cons_of_mem c hx)

theorem matchSkipLink_cons_open (rest : List Char) :
    matchSkipLink ('[' :: rest)
      = (lowerMatch "skip to content".data rest).bind
          (fun r1 => (dropLit linkBridge r1).bind consumeTarget) := by
  rfl

theorem matchSkipLink_shape (m b : List Char) (hm : SkipLinkShape m) :
    matchSkipLink (m ++ b) = some b := by
  obtain ⟨txt, tgt, hmeq, htxt, htgt⟩ := hm
  subst hmeq
  have he : ('[' :: (txt ++ (linkBridge ++ (tgt ++ [')'])))) ++ b
      = '[' :: (txt ++ (linkBridge ++ (tgt ++ ')' :: b))) := by simp
  rw [he, matchSkipLink_cons_open, lowerMatch_of_map txt _ _ htxt]
  simp only [Option.some_bind]
  rw [dropLit_append]
  simp only [Option.some_bind]
  exact consumeTarget_append tgt b htgt

theorem removeSkipFuel_append (a l : List Char) :
    ∀ fuel, a.length + l.length ≤ fuel → '[' ∉ a →
    removeSkipFuel fuel (a ++ l) = a ++ removeSkipL l := by
  induction a with
  | nil =>
    intro fuel hfuel _
    simp only [List.nil_append, List.length_nil, Nat.zero_add] at hfuel ⊢
    exact removeSkipFuel_congr fuel l.length l hfuel le_rfl
  | cons c a' ih =>
    intro fuel hfuel ha
    cases fuel with
    | zero => simp at hfuel
    | succ f =>
      have hc : c ≠ '[' := fun h => ha (h ▸ List.mem_cons_self c a')
      have hnm : matchSkipLink (c :: (a' ++ l)) = none := by
        simp [matchSkipLink, hc]
      have ha' : '[' ∉ a' := fun hx => ha (List.mem_cons_of_mem c hx)
      simp only [List.length_cons] at hfuel
      simp only [List.cons_append]
      rw [removeSkipFuel_cons_none f _ _ hnm, ih f (by omega) ha']

theorem removeSkipL_skip (m b : List Char) (hm : SkipLinkShape m) :
    removeSkipL (m ++ b) = removeSkipL b := by
  have hmatch := matchSkipLink_shape m b hm
  obtain ⟨txt, tgt, hmeq, -, -⟩ := hm
  subst hmeq
  simp only [List.cons_append] at hmatch ⊢
  simp only [removeSkipL, List.length_cons]
  rw [removeSkipFuel_cons_some _ _ _ _ hmatch]
  exact removeSkipFuel_congr _ _ b (by simp; omega) le_rfl

/-- Claim C6: `removeSkipToContentLinks` removes, case-insensitively, every
substring that is a Markdown link with visible text exactly `Skip to Content`
and target beginning with `#`, leaving the rest of the string unchanged;
in particular `"[Skip to Content](#main)"` and `"[skip to content](#skip)"`
are fully removed, while a skip link whose target does not begin with `#`
is untouched. -/
theorem claimC6_removeSkipToContentLinks :
    (∀ a m b : List Char, '[' ∉ a → SkipLinkShape m →
        removeSkipL (a ++ (m ++ b)) = a ++ removeSkipL b)
    ∧ removeSkipToContentLinks "[Skip to Content](#main)" = ""
    ∧ removeSkipToContentLinks "Intro[skip to content](#skip)End" = "IntroEnd"
    ∧ removeSkipToContentLinks "[Skip to Content](main)" = "[Skip to Content](main)" := by
  refine ⟨fun a m b ha hm => ?_, by decide, by decide, by decide⟩
  have h0 : removeSkipL (a ++ (m ++ b))
      = removeSkipFuel (a ++ (m ++ b)).length (a ++ (m ++ b)) := rfl
  rw [h0, removeSkipFuel_append a (m ++ b) _ (by simp) ha, removeSkipL_skip m b hm]

/-- Witness for C6: the general removal clause applied at concrete surrounding
text and a concrete upper-case skip link. -/
theorem claimC6_witness :
    removeSkipL ("AB".data ++ ("[SKIP TO CONTENT](#top)".data ++ " rest".data))
      = "AB".data ++ removeSkipL " rest".data :=
  claimC6_removeSkipToContentLinks.1 "AB".data "[SKIP TO CONTENT](#top)".data " rest".data
    (by decide)
    ⟨"SKIP TO CONTENT".data, "top".data, by decide, by decide, by decide⟩

/-! ### Lazy-image resolution

Both backends resolve a real image URL from the attributes of an `<img>`
element.  An image element is modelled by its relevant attributes;
`none` is an absent attribute (JS `getAttribute` returning `null`), and
attribute values are taken quote-free, as both implementations' regexes
(`[^"']+`) assume. -/

/-- JS `String.includes`: does `l` contain `pat` as a contiguous substring? -/
def containsSubL : List Char → List Char → Bool
  | [], pat => (dropLit pat []).isSome
  | c :: cs, pat => (dropLit pat (c :: cs)).isSome || containsSubL cs pat

/-- JS `String.startsWith` / Go `strings.HasPrefix`. -/
def startsWithL (pat l : List Char) : Bool := (dropLit pat l).isSome

/-- Drop the maximal leading digit run (the greedy tail of `\d+`). -/
def dropDigits : List Char → List Char
  | [] => []
  | c :: cs => if c.isDigit then dropDigits cs else c :: cs

/-- Anchored match of the regex `lit\d+` (literal then one or more digits,
greedy) at the head of `l`, returning `l` minus the matched span. -/
def matchLitDigits (lit l : List Char) : Option (List Char) :=
  match dropLit lit l with
  | some (c :: cs) => if c.isDigit then some (dropDigits cs) else none
  | _ => none

/-- JS `String.replace` with the non-global regex `lit\d+` and empty
replacement: remove the leftmost match only. -/
def replaceFirstPat (lit : List Char) : List Char → List Char
  | [] => []
  | c :: cs =>
    match matchLitDigits lit (c :: cs) with
    | some r => r
    | none => c :: replaceFirstPat lit cs

/-- Go `strings.Replace(s, lit, "", -1)` with explicit fuel (one unit per
scanned position; `fuel = l.length` always suffices): remove every
non-overlapping occurrence of `lit`, left to right. -/
def removeAllLitFuel (lit : List Char) : Nat → List Char → List Char
  | 0, l => l
  | _ + 1, [] => []
  | fuel + 1, c :: cs =>
    match dropLit lit (c :: cs) with
    | some r =>
      match lit with
      | [] => c :: removeAllLitFuel lit fuel cs
      | _ :: _ => removeAllLitFuel lit fuel r
    | none => c :: removeAllLitFuel lit fuel cs

def removeAllLit (lit l : List Char) : List Char := removeAllLitFuel lit l.length l

/-- The attributes of an `<img>` element read by the two implementations.
`dataSrc` is `data-src`, `dataBacksrc` is `data-backsrc`, `dataFailDashSrc`
is `data-fail-src` (TypeScript list), `dataOriginal` is `data-original`,
`dataBackupSrc` is `data-backupSrc` (TypeScript list), `dataFailsrc` is
`data-failsrc` (Go list). -/
structure ImgNode where
  dataSrc : Option String
  src : Option String
  dataBacksrc : Option String
  dataFailDashSrc : Option String
  dataOriginal : Option String
  dataBackupSrc : Option String
  dataFailsrc : Option String
deriving DecidableEq

def wxLazyLit : List Char := "&wx_lazy=".data
def wxCoLit : List Char := "&wx_co=".data

/-- The TypeScript cleanup
`src.replace(/&wx_lazy=\d+/, "").replace(/&wx_co=\d+/, "")`. -/
def tsStripL (l : List Char) : List Char :=
  replaceFirstPat wxCoLit (replaceFirstPat wxLazyLit l)

def tsStrip (s : String) : String := ⟨tsStripL s.data⟩

def svgMarker : List Char := "data:image/svg".data

/-- First attribute value in the list that is present and begins with
`http` (`attrValue && attrValue.startsWith("http")` on the TypeScript
side, `strings.HasPrefix(attrMatch[1], "http")` on the Go side). -/
def firstHttpAttr : List (Option String) → Option String
  | [] => none
  | some v :: rest =>
      if startsWithL "http".data v.data then some v else firstHttpAttr rest
  | none :: rest => firstHttpAttr rest

/-- The `src` resolution of the TypeScript `wechatImages` replacement rule:

```
let src = node.getAttribute("data-src") || node.getAttribute("src") || "";
if (src.includes("data:image/svg") && !node.getAttribute("data-src")) {
  const possibleAttrs = ["data-backsrc", "data-fail-src", "data-original", "data-backupSrc"];
  for (const attr of possibleAttrs) {
    const attrValue = node.getAttribute(attr);
    if (attrValue && attrValue.startsWith("http")) { src = attrValue; break; }
  }
}
src = src.replace(/&wx_lazy=\d+/, "").replace(/&wx_co=\d+/, "");
```
-/
def resolveSrcTS (n : ImgNode) : String :=
  let src0 := if truthyStr n.dataSrc then n.dataSrc.getD ""
              else if truthyStr n.src then n.src.getD "" else ""
  let src1 := if containsSubL src0.data svgMarker && !truthyStr n.dataSrc then
                match firstHttpAttr
                    [n.dataBacksrc, n.dataFailDashSrc, n.dataOriginal, n.dataBackupSrc] with
                | some v => v
                | none => src0
              else src0
  tsStrip src1

/-- The resolution order as the claim states it: (a) a non-empty `data-src`
wins outright; (b) otherwise, if `src` is a data-URI SVG placeholder, the
first of `data-backsrc`, `data-fail-src`, `data-original`, `data-backupSrc`
beginning with an HTTP(S) scheme is taken; (c) otherwise `src` is kept;
afterwards the `&wx_lazy=<digits>` and `&wx_co=<digits>` fragments are
stripped from the resolved URL. -/
def claimResolveTS (n : ImgNode) : String :=
  if truthyStr n.dataSrc then tsStrip (n.dataSrc.getD "")
  else
    let s := if truthyStr n.src then n.src.getD "" else ""
    if containsSubL s.data svgMarker then
      tsStrip ((firstHttpAttr
        [n.dataBacksrc, n.dataFailDashSrc, n.dataOriginal, n.dataBackupSrc]).getD s)
    else tsStrip s

/-- Claim C4: the fallback renderer's lazy-image resolution follows the
stated order — a non-empty `data-src` wins outright; otherwise on an SVG
placeholder `src` the alternates `data-backsrc`, `data-fail-src`,
`data-original`, `data-backupSrc` are scanned in that order for the first
HTTP(S) value; otherwise `src` is kept — and the `&wx_lazy=<digits>` /
`&wx_co=<digits>` fragments are stripped from the result. -/
theorem claimC4_wechatImages_resolution_order :
    ∀ n : ImgNode, resolveSrcTS n = claimResolveTS n := by
  intro n
  unfold resolveSrcTS claimResolveTS
  by_cases h1 : truthyStr n.dataSrc
  · simp [h1]
  · simp only [h1, Bool.not_false, Bool.and_true, Bool.false_eq_true, if_false]
    by_cases h2 : containsSubL (if truthyStr n.src then n.src.getD "" else "").data svgMarker
    · simp only [h2, if_true]
      cases firstHttpAttr [n.dataBacksrc, n.dataFailDashSrc, n.dataOriginal, n.dataBackupSrc] <;>
        simp [Option.getD]
    · simp [h2]

/-! ### processWechatLazyImages (Go), at the level of one image element

```
dataSrcRegex := regexp.MustCompile(`<img[^>]*(data-src=["']([^"']+)["'])[^>]*>`)
html = dataSrcRegex.ReplaceAllStringFunc(html, func(match string) string {
    dataSrc := submatch[2]                         // non-empty by [^"']+
    dataSrc = strings.Replace(dataSrc, "&wx_lazy=1", "", -1)
    dataSrc = strings.Replace(dataSrc, "&wx_co=1", "", -1)
    srcRegex := regexp.MustCompile(`src=["'][^"']+["']`)
    if srcRegex.MatchString(match) {
        return srcRegex.ReplaceAllString(match, `src="`+dataSrc+`"`)
    }
    return strings.Replace(match, "<img ", `<img src="`+dataSrc+`" `, 1)
})
svgPlaceholderRegex := regexp.MustCompile(`src=["']data:image/svg[^"']+["']`)
  // each occurrence is replaced by src="R", where R is the first of
  // data-src, data-backsrc, data-original, data-failsrc in the enclosing
  // (pass-1-rewritten) img tag whose non-empty value has prefix "http";
  // the occurrence is kept when no such attribute exists
```
The passes are modelled on the attributes of a single `<img>` element with
quote-free, `>`-free values, each attribute occurring at most once.  The
inner `srcRegex` is unanchored, and whenever pass 1 fires the tag text
contains the substring `src="…"` inside `data-src="…"` itself, so
`MatchString` is always true, the `<img src=…` injection branch is dead
code, and the replace rewrites every attribute whose lower-case name ends
in `src` and whose value is non-empty — `src`, `data-src` itself,
`data-backsrc`, `data-failsrc`, and `data-fail-src` — to the cleaned
`data-src` value, while an absent or empty (`[^"']+` cannot match)
attribute is left alone.  Pass 2's placeholder regex likewise matches
inside any of those five attributes (never inside `data-original` or
`data-backupSrc`, whose names do not end in lower-case `src`), and its
rescue scan reads the pass-1-rewritten attribute values. -/

def goStripL (l : List Char) : List Char :=
  removeAllLit "&wx_co=1".data (removeAllLit "&wx_lazy=1".data l)

/-- The Go SVG-placeholder test on an attribute value:
`data:image/svg` followed by at least one more character. -/
def isSvgValGo (s : String) : Bool :=
  match dropLit svgMarker s.data with
  | some (_ :: _) => true
  | _ => false

/-- Effect of pass 1's unanchored `src=["'][^"']+["']` replace on one
`src`-suffixed attribute: a present, non-empty value is overwritten with
the cleaned `data-src` value; an absent or empty one is left alone. -/
def pass1Rewrite (v : Option String) (D : String) : Option String :=
  match v with
  | some s => if s = "" then some "" else some D
  | none => none

/-- Pass 1 of `processWechatLazyImages`: fires exactly when a non-empty
`data-src` is present; the injection branch is dead (see the section
comment), so `src` is never added when absent. -/
def goPass1 (n : ImgNode) : ImgNode :=
  match n.dataSrc with
  | some d =>
    if d = "" then n
    else
      let D : String := ⟨goStripL d.data⟩
      { n with
        dataSrc := some D,
        src := pass1Rewrite n.src D,
        dataBacksrc := pass1Rewrite n.dataBacksrc D,
        dataFailsrc := pass1Rewrite n.dataFailsrc D,
        dataFailDashSrc := pass1Rewrite n.dataFailDashSrc D }
  | none => n

/-- Pass 2's rescue value: first of `data-src`, `data-backsrc`,
`data-original`, `data-failsrc` in the pass-1-rewritten tag whose
non-empty value has prefix `http`. -/
def goRescue (n : ImgNode) : Option String :=
  firstHttpAttr [n.dataSrc, n.dataBacksrc, n.dataOriginal, n.dataFailsrc]

/-- Effect of pass 2 on one `src`-suffixed attribute occurrence: an
SVG-placeholder value is replaced by the rescue value when one exists. -/
def pass2Rewrite (v : Option String) (rescue : Option String) : Option String :=
  match v with
  | some s => if isSvgValGo s then some (rescue.getD s) else some s
  | none => none

/-- Pass 2 of `processWechatLazyImages`: every `src`-suffixed attribute
with an SVG-placeholder value is rewritten; the rescue value is computed
once, from pass 2's input (the closure searches the pass-1 output). -/
def goPass2 (n : ImgNode) : ImgNode :=
  let r := goRescue n
  { n with
    src := pass2Rewrite n.src r,
    dataSrc := pass2Rewrite n.dataSrc r,
    dataBacksrc := pass2Rewrite n.dataBacksrc r,
    dataFailsrc := pass2Rewrite n.dataFailsrc r,
    dataFailDashSrc := pass2Rewrite n.dataFailDashSrc r }

/-- The Go normalizer `processWechatLazyImages` on one image element. -/
def processWechatLazyImages (n : ImgNode) : ImgNode := goPass2 (goPass1 n)

/-- The `src` value the Go side leaves on the element. -/
def goNormalizeSrc (n : ImgNode) : Option String := (processWechatLazyImages n).src

/-- The URL the Go side resolves (empty when no `src` results). -/
def goResolvedUrl (n : ImgNode) : String := (goNormalizeSrc n).getD ""

/-- An image node agreeing with the C5 counterexample: a `data-src`
carrying a lazy-load fragment with a digit value other than `1`. -/
def imgC5 : ImgNode :=
  { dataSrc := some "http://a&wx_lazy=22", src := some "x",
    dataBacksrc := none, dataFailDashSrc := none, dataOriginal := none,
    dataBackupSrc := none, dataFailsrc := none }

/-- Counterexample to claim C5: on `imgC5` the TypeScript rule strips the
`&wx_lazy=22` fragment (regex `&wx_lazy=\d+`), while the Go side only
removes the literal `&wx_lazy=1`, so the two resolved URLs differ. -/
theorem claimC5_counterexample :
    goResolvedUrl imgC5 ≠ resolveSrcTS imgC5
    ∧ resolveSrcTS imgC5 = "http://a"
    ∧ goResolvedUrl imgC5 = "http://a&wx_lazy=22" := by
  refine ⟨?_, ?_, ?_⟩ <;> decide

theorem replaceFirstPat_amp (xs : List Char) :
    ∀ l : List Char, '&' ∉ l → replaceFirstPat ('&' :: xs) l = l := by
  intro l
  induction l with
  | nil => intro _; rfl
  | cons c cs ih =>
    intro h
    have hc : c ≠ '&' := fun hcc => h (hcc ▸ List.mem_cons_self c cs)
    have hm : matchLitDigits ('&' :: xs) (c :: cs) = none := by
      simp [matchLitDigits, dropLit, hc]
    simp only [replaceFirstPat, hm]
    rw [ih fun hx => h (List.mem_cons_of_mem c hx)]

theorem removeAllLitFuel_amp (xs : List Char) :
    ∀ fuel (l : List Char), '&' ∉ l → removeAllLitFuel ('&' :: xs) fuel l = l := by
  intro fuel
  induction fuel with
  | zero => intro l _; rfl
  | succ f ih =>
    intro l h
    cases l with
    | nil => rfl
    | cons c cs =>
      have hc : c ≠ '&' := fun hcc => h (hcc ▸ List.mem_cons_self c cs)
      have hd : dropLit ('&' :: xs) (c :: cs) = none := by
        simp [dropLit, hc]
      simp only [removeAllLitFuel, hd]
      rw [ih cs fun hx => h (List.mem_cons_of_mem c hx)]

theorem tsStripL_amp (l : List Char) (h : '&' ∉ l) : tsStripL l = l := by
  unfold tsStripL
  rw [show wxLazyLit = '&' :: "wx_lazy=".data from rfl,
    show wxCoLit = '&' :: "wx_co=".data from rfl,
    replaceFirstPat_amp _ l h, replaceFirstPat_amp _ l h]

theorem goStripL_amp (l : List Char) (h : '&' ∉ l) : goStripL l = l := by
  unfold goStripL removeAllLit
  rw [show ("&wx_lazy=1".data = '&' :: "wx_lazy=1".data) from rfl,
    removeAllLitFuel_amp _ _ l h,
    show ("&wx_co=1".data = '&' :: "wx_co=1".data) from rfl,
    removeAllLitFuel_amp _ _ l h]

/-- Amended claim C5: the two independently implemented resolutions are
not equivalent in general (see the counterexample), but they agree on the
common core: an image carrying a non-empty `src` and a non-empty
`data-src` whose value contains no `&` and is not an SVG-placeholder data
URI resolves, on both sides, to exactly the `data-src` value.  (With `src`
absent or empty, the Go side's dead injection branch leaves no resolved
`src` at all, while the TypeScript side still resolves `data-src`.) -/
theorem claimC5_amended_agreement (n : ImgNode) (d s : String)
    (hd : n.dataSrc = some d) (hne : d ≠ "")
    (hamp : '&' ∉ d.data) (hsvg : isSvgValGo d = false)
    (hs : n.src = some s) (hsne : s ≠ "") :
    goResolvedUrl n = resolveSrcTS n ∧ resolveSrcTS n = d := by
  have htruthy : truthyStr (some d) = true := by
    simpa [truthyStr] using hne
  have hstrip : tsStrip d = d := by
    unfold tsStrip
    rw [tsStripL_amp d.data hamp]
  have hD : (⟨goStripL d.data⟩ : String) = d := by
    rw [goStripL_amp d.data hamp]
  obtain ⟨ds, sr, bs, fds, org, bu, fs⟩ := n
  dsimp only at hd hs
  subst hd
  subst hs
  have hts : resolveSrcTS ⟨some d, some s, bs, fds, org, bu, fs⟩ = d := by
    unfold resolveSrcTS
    dsimp only
    simp only [htruthy, Bool.not_true, Bool.and_false, if_true, if_false,
      Bool.false_eq_true, Option.getD_some]
    exact hstrip
  refine ⟨?_, hts⟩
  have hgo : goNormalizeSrc ⟨some d, some s, bs, fds, org, bu, fs⟩ = some d := by
    simp only [goNormalizeSrc, processWechatLazyImages, goPass1, goPass2,
      pass1Rewrite, pass2Rewrite, hne, hsne, hD, hsvg, if_false,
      Bool.false_eq_true]
  unfold goResolvedUrl
  rw [hgo, hts]
  rfl

/-- Witness for the amended C5 agreement at a concrete plain `data-src`
with a non-empty `src`. -/
theorem claimC5_amended_witness :
    goResolvedUrl
        { dataSrc := some "http://img.example/pic.png", src := some "placeholder",
          dataBacksrc := none, dataFailDashSrc := none, dataOriginal := none,
          dataBackupSrc := none, dataFailsrc := none }
      = resolveSrcTS
        { dataSrc := some "http://img.example/pic.png", src := some "placeholder",
          dataBacksrc := none, dataFailDashSrc := none, dataOriginal := none,
          dataBackupSrc := none, dataFailsrc := none } :=
  (claimC5_amended_agreement _ "http://img.example/pic.png" "placeholder" rfl
    (by decide) (by decide) (by decide) rfl (by decide)).1

/-- The failing input for claim C8: a `data-src` whose value still
contains a removable `&wx_lazy=1` fragment after one cleaning, because the
non-overlapping removal of `&wx_lazy=1` creates a fresh occurrence. -/
def imgC8 : ImgNode :=
  { dataSrc := some "http://x&wx_lazy=&wx_lazy=11", src := some "p",
    dataBacksrc := none, dataFailDashSrc := none, dataOriginal := none,
    dataBackupSrc := none, dataFailsrc := none }

/-- Claim C8 is violated by the code: pass 1's unanchored `src=` replace
overwrites `data-src` itself with the cleaned value, and removing
`&wx_lazy=1` can create a fresh occurrence, so a second application of
`processWechatLazyImages` cleans further — one pass resolves
`http://x&wx_lazy=1`, two passes `http://x` — contradicting the claimed
idempotence (and the code's own comments, whose described copy-and-add
behavior the dead injection branch never performs). -/
theorem claimC8_normalizer_not_idempotent :
    processWechatLazyImages (processWechatLazyImages imgC8)
      ≠ processWechatLazyImages imgC8
    ∧ goResolvedUrl imgC8 = "http://x&wx_lazy=1"
    ∧ goResolvedUrl (processWechatLazyImages imgC8) = "http://x" := by
  refine ⟨?_, ?_, ?_⟩ <;> decide

/-! ### parseMarkdown (TypeScript)

```
export async function parseMarkdown(html) {
  if (!html) { return ""; }
  try {
    if (process.env.USE_GO_MARKDOWN_PARSER == "true") {
      const converter = await GoMarkdownConverter.getInstance();
      let markdownContent = await converter.convertHTMLToMarkdown(html);
      markdownContent = processMultiLineLinks(markdownContent);
      markdownContent = removeSkipToContentLinks(markdownContent);
      return markdownContent;
    }
  } catch (error) {
    if (!(error instanceof Error) || error.message !== "Go shared library not found") {
      Sentry.captureException(error); logger.error(...);
    } else { logger.warn(...); }
  }
  // fallback: TurndownService
  try {
    let markdownContent = await turndownService.turndown(html);
    markdownContent = processMultiLineLinks(markdownContent);
    markdownContent = removeSkipToContentLinks(markdownContent);
    return markdownContent;
  } catch (error) { logger.error(...); return ""; }
}
```
The environment flag and the two backend outcomes are parameters of the
model; telemetry and log side effects are recorded as an event trace. -/

inductive Ev where
  | nativeCall : Ev
  | fallbackCall : Ev
  | sentryReport : String → Ev
  | logWarn : String → Ev
  | logError : String → Ev
deriving DecidableEq

def goMissingMsg : String := "Go shared library not found"

/-- The fixed post-processing applied to either backend's raw Markdown,
in source order. -/
def postProcess (md : String) : String :=
  removeSkipToContentLinks (processMultiLineLinks md)

/-- The fallback (turndown) section of `parseMarkdown`: on success the
output is post-processed; on failure an error is logged and the result is
`""`.  The renderer outcome is a parameter of the model. -/
def fallbackRun (fr : Except String String) : String × List Ev :=
  match fr with
  | Except.ok md => (postProcess md, [Ev.fallbackCall])
  | Except.error e => ("", [Ev.fallbackCall, Ev.logError e])

/-- The `parseMarkdown` entry point.  Thrown values are modelled by their
message: every value the native path throws for the missing-library
condition is an `Error` constructed with message `goMissingMsg`, so the
`instanceof Error` refinement of the catch collapses to a message test. -/
def parseMarkdown (html : Option String) (useGo : Bool)
    (nr fr : Except String String) : String × List Ev :=
  if truthyStr html = false then ("", [])
  else if useGo then
    match nr with
    | Except.ok md => (postProcess md, [Ev.nativeCall])
    | Except.error e =>
      let handler : List Ev :=
        if e = goMissingMsg then [Ev.logWarn e]
        else [Ev.sentryReport e, Ev.logError e]
      let p := fallbackRun fr
      (p.1, Ev.nativeCall :: handler ++ p.2)
  else
    fallbackRun fr

/-- Claim C1: `parseMarkdown` is total — for every input (string, null or
undefined) and every backend outcome it terminates in a string that is
either empty or a post-processed backend output, and when both backends
fail the total conversion failure is converted to the empty string. -/
theorem claimC1_parseMarkdown_total :
    ∀ (html : Option String) (useGo : Bool) (nr fr : Except String String),
      ((parseMarkdown html useGo nr fr).1 = ""
        ∨ (∃ md, nr = Except.ok md ∧ (parseMarkdown html useGo nr fr).1 = postProcess md)
        ∨ (∃ md, fr = Except.ok md ∧ (parseMarkdown html useGo nr fr).1 = postProcess md))
      ∧ (∀ e₁ e₂, (parseMarkdown html useGo (Except.error e₁) (Except.error e₂)).1 = "") := by
  intro html useGo nr fr
  constructor
  · by_cases h : truthyStr html = false
    · left; simp [parseMarkdown, h]
    · cases useGo with
      | true =>
        cases nr with
        | ok md => right; left; exact ⟨md, rfl, by simp [parseMarkdown, h]⟩
        | error e =>
          cases fr with
          | ok md => right; right; exact ⟨md, rfl, by simp [parseMarkdown, h, fallbackRun]⟩
          | error e₂ => left; simp [parseMarkdown, h, fallbackRun]
      | false =>
        cases fr with
        | ok md => right; right; exact ⟨md, rfl, by simp [parseMarkdown, h, fallbackRun]⟩
        | error e₂ => left; simp [parseMarkdown, h, fallbackRun]
  · intro e₁ e₂
    by_cases h : truthyStr html = false
    · simp [parseMarkdown, h]
    · cases useGo <;> simp [parseMarkdown, h, fallbackRun]

/-- Claim C2: for absent (`null`/`undefined`) or empty input,
`parseMarkdown` returns the empty string with an empty event trace — no
backend is invoked. -/
theorem claimC2_empty_input_no_backend :
    ∀ (useGo : Bool) (nr fr : Except String String),
      parseMarkdown none useGo nr fr = ("", [])
      ∧ parseMarkdown (some "") useGo nr fr = ("", []) := by
  intro useGo nr fr
  exact ⟨rfl, rfl⟩

def isSentryEv : Ev → Bool
  | Ev.sentryReport _ => true
  | _ => false

def isWarnEv : Ev → Bool
  | Ev.logWarn _ => true
  | _ => false

def isErrorEv : Ev → Bool
  | Ev.logError _ => true
  | _ => false

def isFallbackEv : Ev → Bool
  | Ev.fallbackCall => true
  | _ => false

theorem fallbackRun_counts (fr : Except String String) :
    ((fallbackRun fr).2).countP isSentryEv = 0
    ∧ ((fallbackRun fr).2).countP isWarnEv = 0
    ∧ ((fallbackRun fr).2).countP isFallbackEv = 1 := by
  cases fr <;> simp [fallbackRun, List.countP_cons, isSentryEv, isWarnEv, isFallbackEv,
    List.countP_nil]

/-- Claim C7: when the native backend is enabled and fails, the
missing-library condition produces only a warning log (nothing to
telemetry), any other failure produces exactly one telemetry report and
one error-level log from the handler, and in both cases the call falls
through exactly once to the fallback renderer and the result equals what
the fallback renderer alone would have produced. -/
theorem claimC7_native_failure_handling :
    ∀ (html : Option String) (e : String) (fr : Except String String),
      truthyStr html = true →
      ((parseMarkdown html true (Except.error e) fr).1
          = (parseMarkdown html false (Except.error e) fr).1)
      ∧ ((parseMarkdown html true (Except.error e) fr).2).countP isFallbackEv = 1
      ∧ (e = goMissingMsg →
          (parseMarkdown html true (Except.error e) fr).2
            = Ev.nativeCall :: Ev.logWarn e :: (fallbackRun fr).2
          ∧ ((parseMarkdown html true (Except.error e) fr).2).countP isSentryEv = 0
          ∧ ((parseMarkdown html true (Except.error e) fr).2).countP isWarnEv = 1)
      ∧ (e ≠ goMissingMsg →
          (parseMarkdown html true (Except.error e) fr).2
            = Ev.nativeCall :: Ev.sentryReport e :: Ev.logError e :: (fallbackRun fr).2
          ∧ ((parseMarkdown html true (Except.error e) fr).2).countP isSentryEv = 1
          ∧ ((parseMarkdown html true (Except.error e) fr).2).countP isErrorEv
              = 1 + ((fallbackRun fr).2).countP isErrorEv) := by
  intro html e fr h
  have hne : ¬ truthyStr html = false := by simp [h]
  refine ⟨?_, ?_, fun hmiss => ?_, fun hother => ?_⟩
  · simp [parseMarkdown, hne]
  · by_cases hm : e = goMissingMsg <;>
      simp [parseMarkdown, hne, hm, List.countP_cons, isFallbackEv,
        (fallbackRun_counts fr).2.2]
  · refine ⟨by simp [parseMarkdown, hne, hmiss], ?_, ?_⟩ <;>
      simp [parseMarkdown, hne, hmiss, List.countP_cons, isSentryEv, isWarnEv,
        (fallbackRun_counts fr).1, (fallbackRun_counts fr).2.1]
  · refine ⟨by simp [parseMarkdown, hne, hother], ?_, ?_⟩ <;>
      simp [parseMarkdown, hne, hother, List.countP_cons, isSentryEv, isErrorEv,
        (fallbackRun_counts fr).1, Nat.add_comm]

/-- Witness for C7: the missing-library branch and the unexpected-error
branch at concrete inputs. -/
theorem claimC7_witness :
    (parseMarkdown (some "<p>x</p>") true (Except.error goMissingMsg) (Except.ok "md")).2
      = Ev.nativeCall :: Ev.logWarn goMissingMsg :: (fallbackRun (Except.ok "md")).2
    ∧ ((parseMarkdown (some "<p>x</p>") true (Except.error "boom") (Except.ok "md")).2).countP
        isSentryEv = 1 :=
  ⟨((claimC7_native_failure_handling (some "<p>x</p>") goMissingMsg (Except.ok "md")
      (by decide)).2.2.1 rfl).1,
   ((claimC7_native_failure_handling (some "<p>x</p>") "boom" (Except.ok "md")
      (by decide)).2.2.2 (by decide)).2.1⟩

/-! ### GoMarkdownConverter.getInstance (TypeScript)

```
public static async getInstance(): Promise<GoMarkdownConverter> {
  if (!GoMarkdownConverter.instance) {
    try { await stat(goExecutablePath); }
    catch (_) { throw Error("Go shared library not found"); }
    GoMarkdownConverter.instance = new GoMarkdownConverter();
  }
  return GoMarkdownConverter.instance;
}
```
Node's event loop interleaves tasks only at `await` points.  A call of
`getInstance` is modelled as two atomic segments: from entry through the
instance check up to the `await stat` suspension, and from resumption
through the constructor (one `koffi.load` per construction) to the return.
The file is taken as present (the claim's successful-creation scenario). -/

inductive TaskPC where
  | start : TaskPC
  | afterAwait : TaskPC
  | done : TaskPC
deriving DecidableEq

structure SingletonSt where
  hasInst : Bool
  loadCount : Nat
deriving DecidableEq

/-- One scheduler step of `getInstance` for one task: at `start`, a cached
instance means an immediate return, otherwise the task suspends at
`await stat`; at `afterAwait` the task constructs the converter (issuing a
library load) and stores it, with no re-check of the cache. -/
def stepGetInstance : TaskPC → SingletonSt → TaskPC × SingletonSt
  | TaskPC.start, s =>
      if s.hasInst then (TaskPC.done, s) else (TaskPC.afterAwait, s)
  | TaskPC.afterAwait, s =>
      (TaskPC.done, { hasInst := true, loadCount := s.loadCount + 1 })
  | TaskPC.done, s => (TaskPC.done, s)

/-- Two concurrent callers of `getInstance` and the shared static state. -/
structure RaceSt where
  pcA : TaskPC
  pcB : TaskPC
  st : SingletonSt
deriving DecidableEq

/-- Run a schedule: `false` steps task A, `true` steps task B. -/
def runSched : List Bool → RaceSt → RaceSt
  | [], r => r
  | t :: rest, r =>
    if t then
      let p := stepGetInstance r.pcB r.st
      runSched rest { r with pcB := p.1, st := p.2 }
    else
      let p := stepGetInstance r.pcA r.st
      runSched rest { r with pcA := p.1, st := p.2 }

/-- Both tasks at entry, no instance, no loads yet. -/
def raceInit : RaceSt := ⟨TaskPC.start, TaskPC.start, ⟨false, 0⟩⟩

/-- Claim C9 is violated by the code: under the interleaving in which both
first-use callers pass the instance check before either assigns (schedule
A, B, A, B), both calls complete and two constructions with two library
loads occur; a fully sequential first call (A, A, then B) performs one. -/
theorem claimC9_getInstance_race :
    ((runSched [false, true, false, true] raceInit).st.loadCount = 2
      ∧ (runSched [false, true, false, true] raceInit).pcA = TaskPC.done
      ∧ (runSched [false, true, false, true] raceInit).pcB = TaskPC.done)
    ∧ (runSched [false, false, true] raceInit).st.loadCount = 1 := by
  decide

end HtmlToMarkdown
